import Mathlib

set_option maxRecDepth 8000

/-!
Shallow embedding of the photobooth server's core subsystems, translated from:

* `server/injector/dependency_container.py` and
  `server/injector/dependency_injection.py` (dependency container / injector),
* `server/eventbus/bus.py` and `server/utils/helpers/function.py` (event bus),
* `server/components/camera/services.py` and
  `server/components/camera/component.py` (camera manager / device),
* `server/core.py` (provider dependency registration).

Python machine model: object identities are natural numbers handed out by an
allocator; class identities are natural numbers; `issubclass` is a boolean
relation supplied as a parameter; dictionaries are association lists with
insert-or-replace semantics; raising an exception is modelled by returning the
state at the raise point together with the raised error.
-/

namespace DI

/-- Identity of a Python class (an interface or an implementation type). -/
abbrev Ty := Nat

/-- Identity of a `DependencyContainer` instance. -/
abbrev ContainerId := Nat

/-- A Python object: its identity (`id(obj)`) and its runtime class. -/
structure Obj where
  oid : Nat
  ty : Ty
deriving DecidableEq, Repr

/-- The return annotation of a callable, as `inspect.signature(...).return_annotation`
sees it: absent (the sentinel class `inspect._empty`), the literal `None`
(from `-> None`), or an actual class. -/
inductive RetAnn where
  | empty
  | noneLit
  | cls (t : Ty)
deriving DecidableEq, Repr

/-- A value bindable through `DependencyContainer.bind`: a class, or a factory
callable. Both are callable in Python. The modelled implementations take no
parameters, so `resolve_dependencies(implementation)` always returns `[]`.
A factory carries an identity `fid` so invocations can be counted, and the
class `mk` of the instances it produces. -/
inductive Impl where
  | cls (t : Ty) (ret : RetAnn)
  | factory (fid : Nat) (mk : Ty) (ret : RetAnn)
deriving DecidableEq, Repr

/-- The return annotation of an implementation's signature. -/
def Impl.retAnn : Impl → RetAnn
  | .cls _ r => r
  | .factory _ _ r => r

/-- A value passed to `DependencyContainer.singleton`: an already-constructed
instance, or a zero-argument factory callable producing instances of class `mk`. -/
inductive SingImpl where
  | inst (o : Obj)
  | factory (fid : Nat) (mk : Ty)
deriving DecidableEq, Repr

/-- Errors raised by the container's registration methods. -/
inductive PyErr where
  | valueError
  | typeError
deriving DecidableEq, Repr

/-- Shared mutable state of the dependency-injection world.

`DependencyContainer` declares `_bindings: dict = {}` and `_singletons: dict = {}`
at class level (`dependency_container.py` lines 21-22); the methods only ever
mutate these dictionaries in place (`self._bindings[interface] = ...`) and never
rebind the attribute, so every container instance reads and writes the same two
class-level dictionaries. The state therefore holds a single `bindings` and a
single `singletons` map, not one per container.

`nextId` is the object-identity allocator and `calls` logs every factory
invocation (by factory id, in order). -/
structure PyState where
  bindings : List (Ty × Impl)
  singletons : List (Ty × Obj)
  nextId : Nat
  calls : List Nat
deriving DecidableEq, Repr

/-- Python `dict` lookup (`d.get(k, None)` / `k in d`). -/
def dictGet {α : Type} (m : List (Ty × α)) (k : Ty) : Option α :=
  match m with
  | [] => none
  | (k', v) :: rest => if k' = k then some v else dictGet rest k

/-- Python `dict` insert-or-replace (`d[k] = v`). -/
def dictInsert {α : Type} (m : List (Ty × α)) (k : Ty) (v : α) : List (Ty × α) :=
  match m with
  | [] => [(k, v)]
  | (k', v') :: rest =>
      if k' = k then (k, v) :: rest else (k', v') :: dictInsert rest k v

/-- `DependencyContainer.bind` (`dependency_container.py` lines 78-124).

The conflict check against `_singletons` comes first and raises `ValueError`
before any mutation. Both modelled implementation shapes are callable, so the
two `not callable(...)` checks never fire, and the method always inspects the
return annotation: `inspect._empty` is itself a class but a subclass of no user
interface, and `None` is not a class, so both raise `TypeError`; an annotated
class must be a subclass of the interface.

`_c` is the container instance the method is invoked on; it is irrelevant
because `self._bindings` and `self._singletons` resolve to the shared
class-level dictionaries (see `PyState`). -/
def bind (sub : Ty → Ty → Bool) (_c : ContainerId) (s : PyState) (interface : Ty)
    (implementation : Impl) : PyState × Option PyErr :=
  if (dictGet s.singletons interface).isSome then
    (s, some .valueError)
  else
    match implementation.retAnn with
    | .empty => (s, some .typeError)
    | .noneLit => (s, some .typeError)
    | .cls rt =>
        if sub rt interface then
          ({ s with bindings := dictInsert s.bindings interface implementation }, none)
        else
          (s, some .typeError)

/-- `DependencyContainer.singleton` (`dependency_container.py` lines 126-175).

The conflict check against `_bindings` comes first and raises `ValueError`
before any mutation. An already-constructed instance is not callable and not a
class, so it is type-checked (`issubclass(type(implementation), interface)`)
and stored. A factory is callable, so it is invoked immediately — at
registration time — and the produced instance is type-checked and stored.
The factory invocation allocates a fresh object and is appended to the call
log even when the subsequent type check raises (Python does not undo side
effects of the call). -/
def singleton (sub : Ty → Ty → Bool) (_c : ContainerId) (s : PyState) (interface : Ty)
    (implementation : SingImpl) : PyState × Option PyErr :=
  if (dictGet s.bindings interface).isSome then
    (s, some .valueError)
  else
    match implementation with
    | .inst o =>
        if sub o.ty interface then
          ({ s with singletons := dictInsert s.singletons interface o }, none)
        else
          (s, some .typeError)
    | .factory fid mk =>
        let o : Obj := ⟨s.nextId, mk⟩
        let s1 : PyState :=
          { s with nextId := s.nextId + 1, calls := s.calls ++ [fid] }
        if sub mk interface then
          ({ s1 with singletons := dictInsert s1.singletons interface o }, none)
        else
          (s1, some .typeError)

/-- `DependencyContainer.get_bind` (`dependency_container.py` lines 24-49):
`self._bindings.get(interface, None)` against the shared class-level map. -/
def get_bind (_c : ContainerId) (s : PyState) (interface : Ty) : Option Impl :=
  dictGet s.bindings interface

/-- `DependencyContainer.get_singleton` (`dependency_container.py` lines 51-76):
`self._singletons.get(interface, None)` against the shared class-level map. -/
def get_singleton (_c : ContainerId) (s : PyState) (interface : Ty) : Option Obj :=
  dictGet s.singletons interface

/-- Calling a bound implementation (`dependency = implementation(*dependency_args)`
in `DependencyInjector._resolve_dependency`). The modelled implementations take
no parameters, so the recursive `resolve_dependencies` call yields `[]` and
never raises. A fresh instance is allocated on every call (transient). -/
def callImpl (s : PyState) : Impl → Obj × PyState
  | .cls t _ => (⟨s.nextId, t⟩, { s with nextId := s.nextId + 1 })
  | .factory fid mk _ =>
      (⟨s.nextId, mk⟩, { s with nextId := s.nextId + 1, calls := s.calls ++ [fid] })

/-- `DependencyInjector._resolve_dependency` (`dependency_injection.py`
lines 195-228): walk the injector's containers in order; per container first
`get_singleton`, then `get_bind`; a found binding is instantiated; otherwise
continue with the next container; `None` when no container resolves it. -/
def resolveDependency (containers : List ContainerId) (s : PyState) (annot : Ty) :
    Option (Obj × PyState) :=
  match containers with
  | [] => none
  | c :: rest =>
      match get_singleton c s annot with
      | some dep => some (dep, s)
      | none =>
          match get_bind c s annot with
          | none => resolveDependency rest s annot
          | some impl => some (callImpl s impl)

/-- `DependencyInjector.add_temporary_container` (`dependency_injection.py`
lines 42-65) run over a scope body: a fresh `DependencyContainer` is appended
to `self.containers`, the body runs with the enlarged search list and the
temporary container's id, and on scope exit (normal or exceptional) the
`finally` block removes the first occurrence of that container from the list.
Note that only the container list shrinks on exit: the class-level binding
dictionaries keep whatever the body wrote. -/
def addTemporaryContainerScope (containers : List ContainerId) (fresh : ContainerId)
    (body : List ContainerId → ContainerId → PyState → PyState) (s : PyState) :
    List ContainerId × PyState :=
  let inside := containers ++ [fresh]
  let s1 := body inside fresh s
  (inside.erase fresh, s1)

end DI

namespace EB

/-- Identity of an event class (`event.__class__`). -/
abbrev EventKind := Nat

/-- What a listener does when invoked: return normally, or raise error `e`.
Whether the listener body is synchronous or a coroutine makes no difference to
`safe_invoke`, which awaits coroutines and calls plain functions directly. -/
inductive LBehavior where
  | ok
  | throws (e : Nat)
deriving DecidableEq, Repr

/-- A registered listener: its identity and its behavior on invocation. -/
structure Listener where
  lid : Nat
  behavior : LBehavior
deriving DecidableEq, Repr

/-- `safe_invoke` (`utils/helpers/function.py` lines 7-34): invoke the function
(awaiting it when it is a coroutine function) and return its outcome. It has
no exception handling of its own. -/
def safeInvoke (l : Listener) : Except Nat Unit :=
  match l.behavior with
  | .ok => .ok ()
  | .throws e => .error e

/-- Semantics of `asyncio.gather(*[safe_invoke(f, ...) for f in funcs])` without
`return_exceptions` (`utils/helpers/function.py` lines 37-61): every coroutine
is eagerly wrapped in its own task and every task runs to completion — a
sibling's exception does not cancel the others — while the aggregate completes
with the first raised exception when there is one. The result is the list of
listener ids actually invoked (in order) and the list of raised errors. -/
def runTasks : List Listener → List Nat × List Nat
  | [] => ([], [])
  | l :: rest =>
      let r := runTasks rest
      match safeInvoke l with
      | .ok _ => (l.lid :: r.1, r.2)
      | .error e => (l.lid :: r.1, e :: r.2)

/-- The event bus listener table: `_listeners : dict[type[Event], list[Listener]]`. -/
abbrev Bus := List (EventKind × List Listener)

/-- The listeners registered for a kind, as `dispatch` reads them:
`self._listeners[event.__class__]` guarded by `event.__class__ in self._listeners`
(`bus.py` line 137); a missing key means no listener runs. -/
def registeredFor (bus : Bus) (k : EventKind) : List Listener :=
  (DI.dictGet bus k).getD []

/-- `EventBus._async_dispatch` (`bus.py` lines 128-138): when the event's kind
has an entry, `await safe_invokes(listeners, event)`; otherwise do nothing.
Returns (invoked listener ids, errors raised by listeners). -/
def asyncDispatch (bus : Bus) (k : EventKind) : List Nat × List Nat :=
  match DI.dictGet bus k with
  | none => ([], [])
  | some ls => runTasks ls

/-- Outcome of one `EventBus.dispatch` call. -/
structure DispatchResult where
  raisedToCaller : Bool
  invoked : List Nat
  taskError : Option Nat
deriving DecidableEq, Repr

/-- `EventBus.dispatch` (`bus.py` lines 106-126):
`asyncio.create_task(self._async_dispatch(event))` — the call returns at once;
an exception escaping `_async_dispatch` lives in the detached task (surfacing
only in the task's own error logging) and is never raised to the caller of
`dispatch`. -/
def dispatch (bus : Bus) (k : EventKind) : DispatchResult :=
  let r := asyncDispatch bus k
  { raisedToCaller := false, invoked := r.1, taskError := r.2.head? }

end EB

namespace Cam

/-- libgphoto2 result codes compared against in `CameraDevice._error_handler`
(values from gphoto2-port-result.h and gphoto2-result.h; the gphoto2 vendor
library is outside the repository). Only their distinctness matters. -/
def GP_ERROR : Int := -1

/-- `gp.GP_ERROR_IO` of gphoto2-port-result.h. -/
def GP_ERROR_IO_CODE : Int := -7

/-- `gp.GP_ERROR_IO_USB_FIND` of gphoto2-port-result.h. -/
def GP_ERROR_IO_USB_FIND : Int := -52

/-- `gp.GP_ERROR_MODEL_NOT_FOUND` of gphoto2-result.h. -/
def GP_ERROR_MODEL_NOT_FOUND : Int := -105

/-- `gp.GP_ERROR_CAMERA_ERROR` of gphoto2-result.h. -/
def GP_ERROR_CAMERA_ERROR : Int := -113

/-- The exception `_error_handler` raises: one of the typed camera errors
(`components/camera/exceptions.py`), or the original `gp.GPhoto2Error`
re-raised unchanged, identified by its code. -/
inductive CamExc where
  | modelNotFound
  | deviceUSBNotFound
  | cameraError
  | gphoto2Error (code : Int)
deriving DecidableEq, Repr

/-- Events dispatched on the bus by the error handler. -/
inductive CamEvent where
  | cameraDisconnected
deriving DecidableEq, Repr

/-- What one `_error_handler` call does: the exception it raises and the events
it dispatches, in order. -/
structure HandlerResult where
  raised : CamExc
  dispatched : List CamEvent
deriving DecidableEq, Repr

/-- `CameraDevice._error_handler` (`services.py` lines 259-269): the exact
chain of `if exception.code == ... / elif ... / else raise exception`. -/
def errorHandler (code : Int) : HandlerResult :=
  if code = GP_ERROR_MODEL_NOT_FOUND then
    { raised := .modelNotFound, dispatched := [] }
  else if code = GP_ERROR_IO_USB_FIND then
    { raised := .deviceUSBNotFound, dispatched := [] }
  else if code = GP_ERROR ∨ code = GP_ERROR_IO_CODE ∨ code = GP_ERROR_CAMERA_ERROR then
    { raised := .cameraError, dispatched := [.cameraDisconnected] }
  else
    { raised := .gphoto2Error code, dispatched := [] }

/-- One observable step of a `CameraDevice` operation, in program order:
stamping `last_active` (with the clock value read at that moment), acquiring or
releasing `self._lock`, a camera-SDK call, or post-processing outside the lock
(extracting bytes, base64 encoding, saving the file). -/
inductive Step where
  | stamp (t : Nat)
  | acquire
  | sdk
  | release
  | post
deriving DecidableEq, Repr

/-- Mutable state of a `CameraDevice`: its `last_active` timestamp (seconds). -/
structure DevState where
  lastActive : Nat
deriving DecidableEq, Repr

/-- `CameraDevice.capture` (`services.py` lines 147-170), called at time
`tStart` and completing at time `tEnd`. The `_camera_activity` decorator
(lines 133-145) runs first and sets `last_active = pendulum.now()` — the clock
at entry — before the body acquires the lock; the body performs two SDK calls
under the lock and extracts the bytes after releasing it. `tEnd` is never read
by the code. -/
def captureOp (_s : DevState) (tStart _tEnd : Nat) : DevState × List Step :=
  ({ lastActive := tStart }, [.stamp tStart, .acquire, .sdk, .sdk, .release, .post])

/-- `CameraDevice.capture_preview` (`services.py` lines 172-192): decorated by
`_camera_activity`; one SDK call under the lock; base64 encoding after release. -/
def capturePreviewOp (_s : DevState) (tStart _tEnd : Nat) : DevState × List Step :=
  ({ lastActive := tStart }, [.stamp tStart, .acquire, .sdk, .release, .post])

/-- `CameraDevice.capture_and_download` (`services.py` lines 194-228): decorated
by `_camera_activity`; three SDK calls under the lock; file save and encoding
after release. -/
def captureAndDownloadOp (_s : DevState) (tStart _tEnd : Nat) : DevState × List Step :=
  ({ lastActive := tStart },
   [.stamp tStart, .acquire, .sdk, .sdk, .sdk, .release, .post])

/-- `CameraDevice.get_config` (`services.py` lines 230-240): decorated by
`_camera_activity`; the SDK call and the return are both inside the lock. -/
def getConfigOp (_s : DevState) (tStart _tEnd : Nat) : DevState × List Step :=
  ({ lastActive := tStart }, [.stamp tStart, .acquire, .sdk, .release])

/-- `CameraDevice.ping` (`services.py` lines 250-257): NOT decorated by
`_camera_activity` — it runs its SDK call under the lock and never touches
`last_active`. -/
def pingOp (s : DevState) (_tStart _tEnd : Nat) : DevState × List Step :=
  (s, [.acquire, .sdk, .release])

/-- `CameraDevice.close` (`services.py` lines 242-248): not decorated either;
one SDK call under the lock. -/
def closeOp (s : DevState) (_tStart _tEnd : Nat) : DevState × List Step :=
  (s, [.acquire, .sdk, .release])

/-- Scan of a step trace with the lock-held flag: `true` exactly when every
SDK step occurs while the lock is held. -/
def underLockAux : Bool → List Step → Bool
  | _, [] => true
  | _, .acquire :: r => underLockAux true r
  | _, .release :: r => underLockAux false r
  | held, .sdk :: r => held && underLockAux held r
  | held, _ :: r => underLockAux held r

/-- Every SDK call of the trace happens between lock acquisition and release. -/
def sdkUnderLock (tr : List Step) : Bool :=
  underLockAux false tr

/-- Outcome of `await self.camera.close()` inside `CameraManager.disconnect`:
success, the already-unplugged case (`DeviceUSBNotFoundError`, a distinct
subclass of `CameraError`), or any other propagating error `e`. -/
inductive CloseOutcome where
  | success
  | usbNotFound
  | otherError (e : Nat)
deriving DecidableEq, Repr

/-- `CameraManager` state: the active camera handle (`self.camera`),
represented by its `last_active` timestamp, or `none`. -/
structure MgrState where
  camera : Option Nat
deriving DecidableEq, Repr

/-- `CameraManager.disconnect` (`services.py` lines 98-107): when a camera is
active, `await self.camera.close()`; `except DeviceUSBNotFoundError: pass`
swallows exactly that error class; the `finally` block sets `self.camera = None`
in every outcome; any other error propagates after the handle is cleared.
Returns the new state and the error raised to the caller, if any. -/
def disconnect (s : MgrState) (outcome : CloseOutcome) : MgrState × Option Nat :=
  match s.camera with
  | none => (s, none)
  | some _ =>
      match outcome with
      | .success => ({ camera := none }, none)
      | .usbNotFound => ({ camera := none }, none)
      | .otherError e => ({ camera := none }, some e)

/-- One pass of the `Camera._check_inactivity` loop body (`component.py` lines
173-191) at clock `now`, with idle-timeout setting `idleTimeout`
(`get_setting_value(SETTING_IDLE_TIMEOUT_DURATION, 300)`): when a camera is
active and `camera.last_active.diff(now).in_seconds() >= idleTimeoutDuration`
— the difference in whole seconds, `now - lastActive` here since timestamps
are whole seconds with `lastActive ≤ now` — the handler `_on_camera_idle`
awaits `disconnect()`. `closeOut` is the outcome of the close call performed
by that disconnect. -/
def checkInactivityOnce (s : MgrState) (now idleTimeout : Nat)
    (closeOut : CloseOutcome) : MgrState × Option Nat :=
  match s.camera with
  | none => (s, none)
  | some lastActive =>
      if now - lastActive ≥ idleTimeout then
        disconnect s closeOut
      else
        (s, none)

end Cam

namespace Reg

/-- Interface identity in the provider registration loop. -/
abbrev Iface := Nat

/-- One entry of the `dependencies` dict passed to
`Photobooth._register_dependencies`: the interface key and the interfaces its
implementation's constructor requires. -/
structure Entry where
  iface : Iface
  needs : List Iface
deriving DecidableEq, Repr

/-- Whether `inject_constructor(implementation)` succeeds: every constructor
dependency resolves against the interfaces registered so far (the abstraction
of container resolution used by this loop; a failure raises `ValueError`,
which the loop catches). -/
def resolvable (reg : List Iface) (e : Entry) : Bool :=
  e.needs.all (fun i => reg.contains i)

/-- Result of one full pass of `_register_dependencies` over the current queue:
the registered interfaces afterwards, the entries that failed (in processing
order — the code's `failed` list), and whether any entry succeeded during the
pass (`attempt` is reset to `0` on each success and is otherwise untouched, so
at the end of a pass it is `0` exactly when the pass had a success). -/
structure PassResult where
  reg : List Iface
  failed : List Entry
  hadSuccess : Bool
deriving DecidableEq, Repr

/-- One full pass of the `while` loop of `_register_dependencies` (`core.py`
lines 164-193) over the current queue: entries are popped in order; a
successful entry is registered immediately (`bind`/`singleton` runs in the
same iteration, so later entries of the same pass already resolve against
it); a failed entry is appended to `failed`. -/
def pass (reg : List Iface) : List Entry → PassResult
  | [] => ⟨reg, [], false⟩
  | e :: rest =>
      if resolvable reg e then
        let r := pass (reg ++ [e.iface]) rest
        ⟨r.reg, r.failed, true⟩
      else
        let r := pass reg rest
        ⟨r.reg, e :: r.failed, r.hadSuccess⟩

/-- Final outcome of `_register_dependencies`: the registered interfaces, the
entries dropped when the retry bound was exceeded, and how many full passes
ran. -/
structure RunResult where
  reg : List Iface
  dropped : List Entry
  passes : Nat
deriving DecidableEq, Repr

/-- The value of `attempt` after the end-of-queue block of one pass: `attempt`
was reset to `0` by any success during the pass, and is then incremented. -/
def nextAttempt (hadSuccess : Bool) (attempt : Nat) : Nat :=
  cond hadSuccess 0 attempt + 1

/-- The `while len(queues) > 0` loop of `_register_dependencies` (`core.py`
lines 158-193), by full passes. After each pass: `attempt` is `0` when the
pass registered something, else its previous value; then the end-of-queue
block increments it; `attempt > max_attempt` (3) logs a warning and breaks,
dropping the entries still in `failed`; otherwise `queues = failed` and the
next pass runs. No exception escapes: resolution failures raise `ValueError`,
which the `except` clause turns into a `failed.append`. -/
def runAux (reg : List Iface) (queue : List Entry) (attempt : Nat) (passes : Nat) :
    RunResult :=
  if queue = [] then
    ⟨reg, [], passes⟩
  else
    if nextAttempt (pass reg queue).hadSuccess attempt > 3 then
      ⟨(pass reg queue).reg, (pass reg queue).failed, passes + 1⟩
    else
      runAux (pass reg queue).reg (pass reg queue).failed
        (nextAttempt (pass reg queue).hadSuccess attempt) (passes + 1)
termination_by 5 * queue.length + (4 - attempt)
decreasing_by
  rename_i _hq hle
  have key : ∀ (rg : List Iface) (q : List Entry),
      (pass rg q).failed.length ≤ q.length
      ∧ ((pass rg q).hadSuccess = true → (pass rg q).failed.length < q.length) := by
    intro rg q
    induction q generalizing rg with
    | nil => exact ⟨Nat.le_refl _, by intro h; simp [pass] at h⟩
    | cons e rest ih =>
        by_cases hr : resolvable rg e
        · refine ⟨?_, fun _ => ?_⟩ <;> simp only [pass, hr, if_true]
          · exact Nat.le_succ_of_le (ih _).1
          · exact Nat.lt_succ_of_le (ih _).1
        · refine ⟨?_, fun h => ?_⟩ <;>
            simp only [pass, hr, if_false, List.length_cons]
          · exact Nat.succ_le_succ (ih _).1
          · exact Nat.succ_lt_succ ((ih _).2 (by simpa [pass, hr] using h))
  cases hs : (pass reg queue).hadSuccess with
  | true =>
      have h1 : (pass reg queue).failed.length < queue.length :=
        (key reg queue).2 hs
      simp only [hs, nextAttempt, cond_true] at hle ⊢
      omega
  | false =>
      have h1 : (pass reg queue).failed.length ≤ queue.length :=
        (key reg queue).1
      simp only [hs, nextAttempt, cond_false] at hle ⊢
      omega

/-- `Photobooth._register_dependencies` (`core.py` lines 144-193): run the
retry loop over the dependency map starting from the interfaces already
registered in the container. -/
def registerDependencies (init : List Iface) (ds : List Entry) : RunResult :=
  runAux init ds 0 0

end Reg

/-! Scenario constants used by concrete evaluations and witnesses. -/

namespace DI

/-- The container invariant of the spec: no interface is simultaneously a
transient binding and a singleton. -/
def exclusive (s : PyState) : Prop :=
  ∀ interface : Ty,
    dictGet s.bindings interface = none ∨ dictGet s.singletons interface = none

end DI

/-- A subclass relation that accepts everything (scenario parameter). -/
def subTrue : DI.Ty → DI.Ty → Bool := fun _ _ => true

/-- The fresh state of the class-level dictionaries at interpreter start. -/
def emptyState : DI.PyState := ⟨[], [], 0, []⟩

/-- Subclass relation for the temporary-container scenario: every class is a
subclass of itself, and class 1 implements interface 0. -/
def subC1 : DI.Ty → DI.Ty → Bool :=
  fun a b => a == b || (a == 1 && b == 0)

/-- The request-handling body run inside `add_temporary_container()`: bind
interface 0 to a request-scoped factory through the temporary container, as
the websocket/http handlers do with the live connection. -/
def bindRequestScoped : List DI.ContainerId → DI.ContainerId → DI.PyState → DI.PyState :=
  fun _inside temp st => (DI.bind subC1 temp st 0 (.factory 7 1 (.cls 1))).1

/-- A state whose class-level `_singletons` already holds interface 2. -/
def sWithSing : DI.PyState := ⟨[], [(2, ⟨0, 2⟩)], 1, []⟩

/-- A state whose class-level `_bindings` already holds interface 2. -/
def sWithBind : DI.PyState := ⟨[(2, .cls 2 (.cls 2))], [], 0, []⟩

/-- A single dependency entry whose constructor requirement never resolves. -/
def dsBlocked : List Reg.Entry := [⟨0, [1]⟩]

/-- Five dependency entries forming a chain declared in worst-possible order:
each entry's constructor needs the interface registered by the entry after it. -/
def chain5 : List Reg.Entry :=
  [⟨5, [4]⟩, ⟨4, [3]⟩, ⟨3, [2]⟩, ⟨2, [1]⟩, ⟨1, []⟩]

/-! Helper lemmas about the dictionary model and the container operations. -/

namespace DI

theorem dictGet_insert_self {α : Type} (m : List (Ty × α)) (k : Ty) (v : α) :
    dictGet (dictInsert m k v) k = some v := by
  induction m with
  | nil => simp [dictInsert, dictGet]
  | cons p rest ih =>
      obtain ⟨k', v'⟩ := p
      by_cases h : k' = k
      · simp [dictInsert, dictGet, h]
      · simp [dictInsert, dictGet, h, ih]

theorem dictGet_insert_ne {α : Type} (m : List (Ty × α)) (k j : Ty) (v : α)
    (h : j ≠ k) : dictGet (dictInsert m k v) j = dictGet m j := by
  induction m with
  | nil => simp [dictInsert, dictGet, Ne.symm h]
  | cons p rest ih =>
      obtain ⟨k', v'⟩ := p
      by_cases hk : k' = k
      · subst hk
        simp [dictInsert, dictGet, Ne.symm h]
      · by_cases hj : k' = j
        · simp [dictInsert, dictGet, h, hk, hj]
        · simp [dictInsert, dictGet, hk, hj, ih]

/-- Success characterization of `bind`: the binding is inserted into the shared
map and the interface had no singleton. -/
theorem bind_ok (sub : Ty → Ty → Bool) (c : ContainerId) (s s' : PyState)
    (interface : Ty) (impl : Impl)
    (h : bind sub c s interface impl = (s', none)) :
    s' = { s with bindings := dictInsert s.bindings interface impl }
    ∧ dictGet s.singletons interface = none := by
  by_cases hg : (dictGet s.singletons interface).isSome
  · simp [bind, hg] at h
  · rcases hr : impl.retAnn with _ | _ | rt
    · simp [bind, hg, hr] at h
    · simp [bind, hg, hr] at h
    · by_cases hs : sub rt interface = true
      · simp [bind, hg, hr, hs, Prod.ext_iff] at h
        exact ⟨h.symm, Option.not_isSome_iff_eq_none.mp hg⟩
      · simp [bind, hg, hr, hs] at h

/-- Success characterization of `singleton` on an instance. -/
theorem singleton_inst_ok (sub : Ty → Ty → Bool) (c : ContainerId) (s s' : PyState)
    (interface : Ty) (o : Obj)
    (h : singleton sub c s interface (.inst o) = (s', none)) :
    s' = { s with singletons := dictInsert s.singletons interface o }
    ∧ dictGet s.bindings interface = none := by
  by_cases hb : (dictGet s.bindings interface).isSome
  · simp [singleton, hb] at h
  · by_cases hs : sub o.ty interface = true
    · simp [singleton, hb, hs, Prod.ext_iff] at h
      exact ⟨h.symm, Option.not_isSome_iff_eq_none.mp hb⟩
    · simp [singleton, hb, hs] at h

/-- Success characterization of `singleton` for either implementation shape. -/
theorem singleton_ok (sub : Ty → Ty → Bool) (c : ContainerId) (s s' : PyState)
    (interface : Ty) (si : SingImpl)
    (h : singleton sub c s interface si = (s', none)) :
    s'.bindings = s.bindings
    ∧ (∃ o, s'.singletons = dictInsert s.singletons interface o)
    ∧ dictGet s.bindings interface = none := by
  by_cases hb : (dictGet s.bindings interface).isSome
  · simp [singleton, hb] at h
  · have hbn : dictGet s.bindings interface = none :=
      Option.not_isSome_iff_eq_none.mp hb
    rcases si with o | ⟨fid, mk⟩
    · by_cases hs : sub o.ty interface = true
      · simp [singleton, hb, hs, Prod.ext_iff] at h
        exact ⟨by rw [← h], ⟨o, by rw [← h]⟩, hbn⟩
      · simp [singleton, hb, hs] at h
    · by_cases hs : sub mk interface = true
      · simp [singleton, hb, hs, Prod.ext_iff] at h
        exact ⟨by rw [← h], ⟨⟨s.nextId, mk⟩, by rw [← h]⟩, hbn⟩
      · simp [singleton, hb, hs] at h

end DI

namespace EB

/-- Every task created by the gather invokes its listener exactly once, in
registration order, regardless of which listeners throw. -/
theorem runTasks_invoked (ls : List Listener) :
    (runTasks ls).1 = ls.map Listener.lid := by
  induction ls with
  | nil => rfl
  | cons l rest ih =>
      cases hb : l.behavior <;> simp [runTasks, safeInvoke, hb, ih]

end EB

namespace Reg

theorem pass_failed_length_le (reg : List Iface) (q : List Entry) :
    (pass reg q).failed.length ≤ q.length := by
  induction q generalizing reg with
  | nil => simp [pass]
  | cons e rest ih =>
      by_cases h : resolvable reg e
      · simp only [pass, h, if_true]
        exact Nat.le_succ_of_le (ih _)
      · simp only [pass, h, if_false, List.length_cons]
        exact Nat.succ_le_succ (ih _)

theorem pass_success_failed_length_lt (reg : List Iface) (q : List Entry)
    (h : (pass reg q).hadSuccess = true) :
    (pass reg q).failed.length < q.length := by
  induction q generalizing reg with
  | nil => simp [pass] at h
  | cons e rest ih =>
      by_cases hr : resolvable reg e
      · simp only [pass, hr, if_true]
        exact Nat.lt_succ_of_le (pass_failed_length_le _ _)
      · simp only [pass, hr, if_false] at h ⊢
        simp only [List.length_cons]
        exact Nat.succ_lt_succ (ih _ h)

/-- Pass count bound for the retry loop: starting from `attempt ≤ 3`, at most
`(4 - attempt) + 4 · |queue|` further passes run. -/
theorem runAux_passes_le (queue : List Entry) (reg : List Iface)
    (attempt passes : Nat) (ha : attempt ≤ 3) :
    (runAux reg queue attempt passes).passes
      ≤ passes + (4 - attempt) + 4 * queue.length := by
  induction reg, queue, attempt, passes using runAux.induct with
  | case1 reg attempt passes => simp [runAux]
  | case2 reg queue attempt passes hq hgt =>
      rw [runAux, if_neg hq, if_pos hgt]
      simp only []
      omega
  | case3 reg queue attempt passes hq hgt ih =>
      rw [runAux, if_neg hq, if_neg hgt]
      by_cases hs : (pass reg queue).hadSuccess = true
      · have hlt := pass_success_failed_length_lt reg queue hs
        have hna2 : nextAttempt (pass reg queue).hadSuccess attempt = 1 := by
          rw [hs]
          rfl
        rw [hna2] at ih ⊢
        have ihh := ih (by omega)
        omega
      · have hle := pass_failed_length_le reg queue
        rw [Bool.not_eq_true] at hs
        have hna2 : nextAttempt (pass reg queue).hadSuccess attempt = attempt + 1 := by
          rw [hs]
          rfl
        rw [hna2] at ih hgt ⊢
        have ihh := ih (by omega)
        omega

theorem pass_reg_mono (reg : List Iface) (q : List Entry) (x : Iface)
    (h : x ∈ reg) : x ∈ (pass reg q).reg := by
  induction q generalizing reg with
  | nil => simpa [pass] using h
  | cons e rest ih =>
      by_cases hr : resolvable reg e
      · simp only [pass, hr, if_true]
        exact ih _ (List.mem_append_left _ h)
      · simp only [pass, hr, if_false]
        exact ih _ h

/-- Every entry of a pass's queue ends up registered or in the failed list. -/
theorem pass_mem (reg : List Iface) (q : List Entry) (e : Entry) (he : e ∈ q) :
    e.iface ∈ (pass reg q).reg ∨ e ∈ (pass reg q).failed := by
  induction q generalizing reg with
  | nil => cases he
  | cons f rest ih =>
      rcases List.mem_cons.mp he with hef | hem
      · subst hef
        by_cases hr : resolvable reg e
        · simp only [pass, hr, if_true]
          left
          exact pass_reg_mono _ _ _ (List.mem_append_right _ (List.mem_singleton_self _))
        · simp only [pass, hr, if_false]
          right
          exact List.mem_cons_self _ _
      · by_cases hr : resolvable reg f
        · simp only [pass, hr, if_true]
          exact ih _ hem
        · simp only [pass, hr, if_false]
          rcases ih reg hem with h | h
          · exact Or.inl h
          · exact Or.inr (List.mem_cons_of_mem _ h)

theorem runAux_reg_mono (queue : List Entry) (reg : List Iface)
    (attempt passes : Nat) (x : Iface) (h : x ∈ reg) :
    x ∈ (runAux reg queue attempt passes).reg := by
  induction reg, queue, attempt, passes using runAux.induct with
  | case1 reg attempt passes => simpa [runAux] using h
  | case2 reg queue attempt passes hq hgt =>
      rw [runAux, if_neg hq, if_pos hgt]
      exact pass_reg_mono _ _ _ h
  | case3 reg queue attempt passes hq hgt ih =>
      rw [runAux, if_neg hq, if_neg hgt]
      exact ih (pass_reg_mono _ _ _ h)

/-- Every entry of the initial queue is eventually registered or dropped. -/
theorem runAux_mem (queue : List Entry) (reg : List Iface)
    (attempt passes : Nat) (e : Entry) (he : e ∈ queue) :
    e.iface ∈ (runAux reg queue attempt passes).reg
    ∨ e ∈ (runAux reg queue attempt passes).dropped := by
  induction reg, queue, attempt, passes using runAux.induct with
  | case1 reg attempt passes => cases he
  | case2 reg queue attempt passes hq hgt =>
      rw [runAux, if_neg hq, if_pos hgt]
      exact pass_mem _ _ _ he
  | case3 reg queue attempt passes hq hgt ih =>
      rw [runAux, if_neg hq, if_neg hgt]
      rcases pass_mem reg queue e he with h | h
      · exact Or.inl (runAux_reg_mono _ _ _ _ _ h)
      · exact ih h

/-- A pass over a queue none of whose entries resolves changes nothing. -/
theorem pass_stuck (reg : List Iface) (q : List Entry)
    (h : ∀ e ∈ q, resolvable reg e = false) :
    pass reg q = ⟨reg, q, false⟩ := by
  induction q with
  | nil => rfl
  | cons e rest ih =>
      have he : resolvable reg e = false := h e (List.mem_cons_self _ _)
      have hrest : ∀ f ∈ rest, resolvable reg f = false :=
        fun f hf => h f (List.mem_cons_of_mem _ hf)
      simp only [pass, he, Bool.false_eq_true, if_false, ih hrest]

/-- When no entry ever resolves, the loop runs exactly `k + 1` more passes
(counting from `attempt + k = 3`) and then drops the whole queue. -/
theorem runAux_stuck (k : Nat) (reg : List Iface) (q : List Entry)
    (attempt passes : Nat) (hq : q ≠ [])
    (h : ∀ e ∈ q, resolvable reg e = false)
    (hk : attempt + k = 3) :
    runAux reg q attempt passes = ⟨reg, q, passes + (k + 1)⟩ := by
  induction k generalizing attempt passes with
  | zero =>
      rw [runAux, if_neg hq]
      rw [pass_stuck reg q h]
      have hgt : nextAttempt false attempt > 3 := by
        simp only [nextAttempt, cond_false]
        omega
      rw [if_pos hgt]
  | succ n ih =>
      rw [runAux, if_neg hq]
      rw [pass_stuck reg q h]
      have hgt : ¬(nextAttempt false attempt > 3) := by
        simp only [nextAttempt, cond_false]
        omega
      rw [if_neg hgt]
      show runAux reg q (nextAttempt false attempt) (passes + 1)
          = ⟨reg, q, passes + (n + 1 + 1)⟩
      simp only [nextAttempt, cond_false]
      have hih := ih (attempt + 1) (passes + 1) (by omega)
      rw [hih]
      congr 1
      omega

end Reg

/-! Claim theorems. -/

/-- Claim C1: the claim states that a binding made inside
`add_temporary_container()` is unresolvable through the injector after the
scope exits. Evaluating the embedded code at a failing input refutes this:
with one permanent container (id 0), a request-scoped binding of interface 0
made through the temporary container (id 1), and the scope exited (the
container list is back to `[0]`), `_resolve_dependency` still resolves
interface 0 — the temporary container wrote into the class-level `_bindings`
dictionary shared by every `DependencyContainer` instance, so the binding
survives scope exit and leaks into later resolutions. -/
theorem C1_temporary_binding_resolvable_after_scope_exit :
    (DI.addTemporaryContainerScope [0] 1 bindRequestScoped emptyState).1 = [0]
    ∧ DI.resolveDependency
        (DI.addTemporaryContainerScope [0] 1 bindRequestScoped emptyState).1
        (DI.addTemporaryContainerScope [0] 1 bindRequestScoped emptyState).2 0
      = some (⟨0, 1⟩,
          { emptyState with
              bindings := [(0, .factory 7 1 (.cls 1))]
              nextId := 1
              calls := [7] }) := by
  exact ⟨rfl, rfl⟩

/-- Claim C2: all `DependencyContainer` instances share one bindings map and
one singletons map (class-level state): after `c1.bind(I, impl)` succeeds,
`c2.get_bind(I)` returns `impl`, and after `c1.singleton(I, inst)` succeeds,
`c2.get_singleton(I)` returns the same instance, for every pair of container
instances `c1`, `c2`. -/
theorem C2_containers_share_class_level_state :
    (∀ (sub : DI.Ty → DI.Ty → Bool) (c1 c2 : DI.ContainerId) (s s' : DI.PyState)
        (interface : DI.Ty) (impl : DI.Impl),
        DI.bind sub c1 s interface impl = (s', none) →
        DI.get_bind c2 s' interface = some impl)
    ∧ (∀ (sub : DI.Ty → DI.Ty → Bool) (c1 c2 : DI.ContainerId) (s s' : DI.PyState)
        (interface : DI.Ty) (o : DI.Obj),
        DI.singleton sub c1 s interface (.inst o) = (s', none) →
        DI.get_singleton c2 s' interface = some o) := by
  constructor
  · intro sub c1 c2 s s' interface impl h
    obtain ⟨hs', -⟩ := DI.bind_ok sub c1 s s' interface impl h
    rw [hs']
    exact DI.dictGet_insert_self _ _ _
  · intro sub c1 c2 s s' interface o h
    obtain ⟨hs', -⟩ := DI.singleton_inst_ok sub c1 s s' interface o h
    rw [hs']
    exact DI.dictGet_insert_self _ _ _

/-- Claim C2 witness: concrete registrations through container 0 (resp. 1) are
observable through containers 7 (resp. 9). -/
theorem C2_containers_share_class_level_state_witness :
    DI.bind subTrue 0 emptyState 3 (.cls 4 (.cls 4))
        = ({ emptyState with bindings := [(3, .cls 4 (.cls 4))] }, none)
    ∧ DI.get_bind 7 { emptyState with bindings := [(3, .cls 4 (.cls 4))] } 3
        = some (.cls 4 (.cls 4))
    ∧ DI.singleton subTrue 1 emptyState 5 (.inst ⟨0, 6⟩)
        = ({ emptyState with singletons := [(5, ⟨0, 6⟩)] }, none)
    ∧ DI.get_singleton 9 { emptyState with singletons := [(5, ⟨0, 6⟩)] } 5
        = some ⟨0, 6⟩ := by
  refine ⟨rfl, ?_, rfl, ?_⟩
  · exact C2_containers_share_class_level_state.1 subTrue 0 7 emptyState _ 3 _ rfl
  · exact C2_containers_share_class_level_state.2 subTrue 1 9 emptyState _ 5 _ rfl

/-- Claim C3: `_error_handler` maps the "model not found" code to
`ModelNotFoundError`, the "USB device not found" code to
`DeviceUSBNotFoundError`, each of the generic / I-O / camera-error codes to
`CameraError` with exactly one `CameraDisconnectedEvent` dispatch, and
re-raises every other code unchanged with no event dispatched. -/
theorem C3_camera_error_mapping :
    Cam.errorHandler Cam.GP_ERROR_MODEL_NOT_FOUND
        = ⟨.modelNotFound, []⟩
    ∧ Cam.errorHandler Cam.GP_ERROR_IO_USB_FIND
        = ⟨.deviceUSBNotFound, []⟩
    ∧ (∀ code : Int,
        code = Cam.GP_ERROR ∨ code = Cam.GP_ERROR_IO_CODE
          ∨ code = Cam.GP_ERROR_CAMERA_ERROR →
        Cam.errorHandler code = ⟨.cameraError, [.cameraDisconnected]⟩
        ∧ (Cam.errorHandler code).dispatched.length = 1)
    ∧ (∀ code : Int,
        code ≠ Cam.GP_ERROR_MODEL_NOT_FOUND →
        code ≠ Cam.GP_ERROR_IO_USB_FIND →
        code ≠ Cam.GP_ERROR →
        code ≠ Cam.GP_ERROR_IO_CODE →
        code ≠ Cam.GP_ERROR_CAMERA_ERROR →
        Cam.errorHandler code = ⟨.gphoto2Error code, []⟩
        ∧ (Cam.errorHandler code).dispatched = []) := by
  refine ⟨by decide, by decide, ?_, ?_⟩
  · intro code hc
    have hne1 : code ≠ Cam.GP_ERROR_MODEL_NOT_FOUND := by
      rcases hc with h | h | h <;> rw [h] <;> decide
    have hne2 : code ≠ Cam.GP_ERROR_IO_USB_FIND := by
      rcases hc with h | h | h <;> rw [h] <;> decide
    constructor
    · unfold Cam.errorHandler
      rw [if_neg hne1, if_neg hne2, if_pos hc]
    · unfold Cam.errorHandler
      rw [if_neg hne1, if_neg hne2, if_pos hc]
      rfl
  · intro code h1 h2 h3 h4 h5
    have hgen : ¬(code = Cam.GP_ERROR ∨ code = Cam.GP_ERROR_IO_CODE
        ∨ code = Cam.GP_ERROR_CAMERA_ERROR) := by
      intro h
      rcases h with h | h | h
      · exact h3 h
      · exact h4 h
      · exact h5 h
    constructor
    · unfold Cam.errorHandler
      rw [if_neg h1, if_neg h2, if_neg hgen]
    · unfold Cam.errorHandler
      rw [if_neg h1, if_neg h2, if_neg hgen]

/-- Claim C3 witness: the I-O error code dispatches exactly one disconnect
event and raises `CameraError`; an unknown code is re-raised unchanged. -/
theorem C3_camera_error_mapping_witness :
    Cam.errorHandler (-7) = ⟨.cameraError, [.cameraDisconnected]⟩
    ∧ (Cam.errorHandler (-7)).dispatched.length = 1
    ∧ Cam.errorHandler (-999) = ⟨.gphoto2Error (-999), []⟩ := by
  have h3 := C3_camera_error_mapping.2.2.1 (-7) (Or.inr (Or.inl (by decide)))
  have h4 := C3_camera_error_mapping.2.2.2 (-999) (by decide) (by decide)
      (by decide) (by decide) (by decide)
  exact ⟨h3.1, h3.2, h4.1⟩

/-- Claim C4: for every listener table and every event kind — including kinds
with zero listeners and listeners that throw — `dispatch` returns without
raising to its caller, and every registered listener for that kind is invoked
exactly once (in registration order), so no listener's failure reaches the
dispatcher or prevents another listener from being invoked. -/
theorem C4_dispatch_never_raises_and_invokes_all :
    ∀ (bus : EB.Bus) (k : EB.EventKind),
      (EB.dispatch bus k).raisedToCaller = false
      ∧ (EB.dispatch bus k).invoked
          = (EB.registeredFor bus k).map EB.Listener.lid := by
  intro bus k
  refine ⟨rfl, ?_⟩
  unfold EB.dispatch EB.asyncDispatch EB.registeredFor
  cases h : DI.dictGet bus k with
  | none => rfl
  | some ls => simpa using EB.runTasks_invoked ls

/-- Claim C5 counterexample: the claim states every operation in the list —
`ping` included — stamps `last_active = now` on completion. In the embedded
code a `ping` that starts at time 43 and completes at time 44 on a device with
`last_active = 42` leaves `last_active` at 42 (ping is not decorated with
`_camera_activity`), and a `capture` that starts at time 1 and completes at
time 5 sets `last_active = 1`, the start time, not the completion time. -/
theorem C5_counterexample_ping_and_completion_time :
    (Cam.pingOp ⟨42⟩ 43 44).1 = ⟨42⟩
    ∧ (Cam.pingOp ⟨42⟩ 43 44).1.lastActive ≠ 44
    ∧ (Cam.captureOp ⟨0⟩ 1 5).1.lastActive = 1
    ∧ (Cam.captureOp ⟨0⟩ 1 5).1.lastActive ≠ 5 := by
  exact ⟨rfl, by decide, rfl, by decide⟩

/-- Claim C5 amended: `capture`, `capture_preview`, `capture_and_download` and
`get_config` stamp `last_active = now` at the start of the operation (in the
`_camera_activity` wrapper, before the lock is acquired), while `ping` leaves
the device state unchanged; every operation, `ping` and `close` included,
performs all of its SDK calls while holding the exclusive device lock. -/
theorem C5_amended_last_active_semantics :
    ∀ (s : Cam.DevState) (tStart tEnd : Nat),
      (Cam.captureOp s tStart tEnd).1.lastActive = tStart
      ∧ (Cam.capturePreviewOp s tStart tEnd).1.lastActive = tStart
      ∧ (Cam.captureAndDownloadOp s tStart tEnd).1.lastActive = tStart
      ∧ (Cam.getConfigOp s tStart tEnd).1.lastActive = tStart
      ∧ (Cam.pingOp s tStart tEnd).1 = s
      ∧ Cam.sdkUnderLock (Cam.captureOp s tStart tEnd).2 = true
      ∧ Cam.sdkUnderLock (Cam.capturePreviewOp s tStart tEnd).2 = true
      ∧ Cam.sdkUnderLock (Cam.captureAndDownloadOp s tStart tEnd).2 = true
      ∧ Cam.sdkUnderLock (Cam.getConfigOp s tStart tEnd).2 = true
      ∧ Cam.sdkUnderLock (Cam.pingOp s tStart tEnd).2 = true
      ∧ Cam.sdkUnderLock (Cam.closeOp s tStart tEnd).2 = true := by
  intro s tStart tEnd
  exact ⟨rfl, rfl, rfl, rfl, rfl, rfl, rfl, rfl, rfl, rfl, rfl⟩

/-- Claim C6 counterexample: the claim states a singleton factory is not
invoked at registration time and is invoked lazily on first resolution. In
the embedded code, registering factory 9 for interface 3 — before any
resolution has happened — already records exactly one invocation of the
factory in the call log. -/
theorem C6_counterexample_factory_called_at_registration :
    (DI.singleton subTrue 0 emptyState 3 (.factory 9 4)).2 = none
    ∧ (DI.singleton subTrue 0 emptyState 3 (.factory 9 4)).1.calls = [9]
    ∧ (DI.singleton subTrue 0 emptyState 3 (.factory 9 4)).1.calls ≠ [] := by
  refine ⟨rfl, rfl, by decide⟩

/-- Claim C6 amended: a zero-argument singleton factory is invoked exactly
once, eagerly, at registration time (the call log grows by exactly that one
invocation); the produced instance is cached in the singletons map, and every
resolution of the interface through the injector returns that identical cached
instance and leaves the state unchanged (so repeated resolutions return the
same instance and never invoke the factory again). -/
theorem C6_amended_eager_singleton_factory :
    ∀ (sub : DI.Ty → DI.Ty → Bool) (c : DI.ContainerId) (s : DI.PyState)
      (interface fid mk : Nat),
      DI.dictGet s.bindings interface = none →
      sub mk interface = true →
      DI.singleton sub c s interface (.factory fid mk)
          = ({ s with
                 nextId := s.nextId + 1
                 calls := s.calls ++ [fid]
                 singletons := DI.dictInsert s.singletons interface ⟨s.nextId, mk⟩ },
             none)
      ∧ (∀ (c' : DI.ContainerId) (rest : List DI.ContainerId),
          DI.resolveDependency (c' :: rest)
              (DI.singleton sub c s interface (.factory fid mk)).1 interface
            = some (⟨s.nextId, mk⟩,
                (DI.singleton sub c s interface (.factory fid mk)).1)) := by
  intro sub c s interface fid mk hb hsub
  have hnb : ¬(DI.dictGet s.bindings interface).isSome = true := by
    simp [hb]
  have h1 : DI.singleton sub c s interface (.factory fid mk)
      = ({ s with
             nextId := s.nextId + 1
             calls := s.calls ++ [fid]
             singletons := DI.dictInsert s.singletons interface ⟨s.nextId, mk⟩ },
         none) := by
    simp [DI.singleton, hnb, hsub]
  refine ⟨h1, ?_⟩
  intro c' rest
  rw [h1]
  simp [DI.resolveDependency, DI.get_singleton, DI.dictGet_insert_self]

/-- Claim C6 amended witness: a concrete factory registration and a concrete
resolution of the cached instance. -/
theorem C6_amended_eager_singleton_factory_witness :
    DI.singleton subTrue 0 emptyState 3 (.factory 9 4)
        = ({ emptyState with
               nextId := 1
               calls := [9]
               singletons := [(3, ⟨0, 4⟩)] }, none)
    ∧ DI.resolveDependency [5] (DI.singleton subTrue 0 emptyState 3 (.factory 9 4)).1 3
        = some (⟨0, 4⟩, (DI.singleton subTrue 0 emptyState 3 (.factory 9 4)).1) := by
  have h := C6_amended_eager_singleton_factory subTrue 0 emptyState 3 9 4 rfl rfl
  exact ⟨h.1, h.2 5 []⟩

/-- Claim C7: binding an interface that is already a singleton fails with the
registration-time configuration error (realized as `ValueError` in the code)
and leaves the container state unchanged; registering a singleton for an
interface that already has a transient binding fails the same way; and both
successful operations preserve the invariant that no interface is
simultaneously a transient binding and a singleton. -/
theorem C7_transient_singleton_exclusive :
    (∀ (sub : DI.Ty → DI.Ty → Bool) (c : DI.ContainerId) (s : DI.PyState)
        (interface : DI.Ty) (impl : DI.Impl),
        (DI.dictGet s.singletons interface).isSome →
        DI.bind sub c s interface impl = (s, some .valueError))
    ∧ (∀ (sub : DI.Ty → DI.Ty → Bool) (c : DI.ContainerId) (s : DI.PyState)
        (interface : DI.Ty) (si : DI.SingImpl),
        (DI.dictGet s.bindings interface).isSome →
        DI.singleton sub c s interface si = (s, some .valueError))
    ∧ (∀ (sub : DI.Ty → DI.Ty → Bool) (c : DI.ContainerId) (s s' : DI.PyState)
        (interface : DI.Ty) (impl : DI.Impl),
        DI.exclusive s →
        DI.bind sub c s interface impl = (s', none) →
        DI.exclusive s')
    ∧ (∀ (sub : DI.Ty → DI.Ty → Bool) (c : DI.ContainerId) (s s' : DI.PyState)
        (interface : DI.Ty) (si : DI.SingImpl),
        DI.exclusive s →
        DI.singleton sub c s interface si = (s', none) →
        DI.exclusive s') := by
  refine ⟨?_, ?_, ?_, ?_⟩
  · intro sub c s interface impl h
    simp [DI.bind, h]
  · intro sub c s interface si h
    simp [DI.singleton, h]
  · intro sub c s s' interface impl hex h
    obtain ⟨hs', hnone⟩ := DI.bind_ok sub c s s' interface impl h
    intro j
    by_cases hj : j = interface
    · subst hj
      right
      rw [hs']
      exact hnone
    · rcases hex j with hb | hsg
      · left
        rw [hs']
        simpa [DI.dictGet_insert_ne _ _ _ _ hj] using hb
      · right
        rw [hs']
        exact hsg
  · intro sub c s s' interface si hex h
    obtain ⟨hbind, ⟨o, hsing⟩, hnone⟩ := DI.singleton_ok sub c s s' interface si h
    intro j
    by_cases hj : j = interface
    · subst hj
      left
      rw [hbind]
      exact hnone
    · rcases hex j with hb | hsg
      · left
        rw [hbind]
        exact hb
      · right
        rw [hsing]
        simpa [DI.dictGet_insert_ne _ _ _ _ hj] using hsg

/-- Claim C7 witness: concrete conflicting registrations fail with the
configuration error and a concrete successful bind preserves exclusivity. -/
theorem C7_transient_singleton_exclusive_witness :
    DI.bind subTrue 0 sWithSing 2 (.cls 2 (.cls 2)) = (sWithSing, some .valueError)
    ∧ DI.singleton subTrue 0 sWithBind 2 (.inst ⟨0, 2⟩) = (sWithBind, some .valueError)
    ∧ DI.exclusive { emptyState with bindings := [(3, .cls 4 (.cls 4))] } := by
  refine ⟨?_, ?_, ?_⟩
  · exact C7_transient_singleton_exclusive.1 subTrue 0 sWithSing 2 _ rfl
  · exact C7_transient_singleton_exclusive.2.1 subTrue 0 sWithBind 2 _ rfl
  · exact C7_transient_singleton_exclusive.2.2.1 subTrue 0 emptyState _ 3
      (.cls 4 (.cls 4)) (fun _ => Or.inl rfl) rfl

/-- Claim C8: one pass of the inactivity check with a connected camera and
idle timeout `T ≥ 1` (default 300): when `now` is at least `last_active + T + 1`
the camera is force-disconnected and the active handle is cleared to `none`
(whatever the close outcome); when `last_active = now` the camera stays
connected and the state is unchanged. -/
theorem C8_idle_timeout_check :
    ∀ (lastActive now idleTimeout : Nat) (oc : Cam.CloseOutcome),
      1 ≤ idleTimeout →
      (lastActive + idleTimeout + 1 ≤ now →
        (Cam.checkInactivityOnce ⟨some lastActive⟩ now idleTimeout oc).1.camera = none)
      ∧ Cam.checkInactivityOnce ⟨some lastActive⟩ lastActive idleTimeout oc
          = (⟨some lastActive⟩, none) := by
  intro lastActive now idleTimeout oc hT
  constructor
  · intro hnow
    have hge : now - lastActive ≥ idleTimeout := by omega
    unfold Cam.checkInactivityOnce
    simp only [hge, if_pos]
    cases oc <;> rfl
  · have hlt : ¬(lastActive - lastActive ≥ idleTimeout) := by omega
    simp only [Cam.checkInactivityOnce]
    rw [if_neg hlt]

/-- Claim C8 witness: with the default timeout of 300 seconds, a camera last
active 301 seconds ago is disconnected, and a camera active right now is not. -/
theorem C8_idle_timeout_check_witness :
    (Cam.checkInactivityOnce ⟨some 0⟩ 301 300 .success).1.camera = none
    ∧ Cam.checkInactivityOnce ⟨some 5⟩ 5 300 .success = (⟨some 5⟩, none) := by
  have h1 := C8_idle_timeout_check 0 301 300 .success (by decide)
  have h2 := C8_idle_timeout_check 5 5 300 .success (by decide)
  exact ⟨h1.1 (by decide), h2.2⟩

/-- Claim C9: `disconnect()` with an active handle clears the handle to `none`
in every outcome of the close call (success, swallowed USB-not-found, or any
other propagated error); the USB-not-found error class is swallowed (the call
returns normally), success raises nothing, and any other error propagates to
the caller — after the handle has been cleared by the `finally` block. -/
theorem C9_disconnect_clears_handle :
    ∀ (s : Cam.MgrState) (la : Nat) (oc : Cam.CloseOutcome),
      s.camera = some la →
      (Cam.disconnect s oc).1.camera = none
      ∧ (oc = .success → (Cam.disconnect s oc).2 = none)
      ∧ (oc = .usbNotFound → (Cam.disconnect s oc).2 = none)
      ∧ (∀ e, oc = .otherError e → (Cam.disconnect s oc).2 = some e) := by
  intro s la oc hcam
  obtain ⟨cam⟩ := s
  cases hcam
  cases oc with
  | success => exact ⟨rfl, fun _ => rfl, by simp, by simp⟩
  | usbNotFound => exact ⟨rfl, by simp, fun _ => rfl, by simp⟩
  | otherError e =>
      refine ⟨rfl, by simp [Cam.disconnect], by simp [Cam.disconnect], ?_⟩
      intro e' he
      cases he
      rfl

/-- Claim C9 witness: a concrete disconnect that swallows the USB-not-found
error and one that propagates another error, both clearing the handle. -/
theorem C9_disconnect_clears_handle_witness :
    (Cam.disconnect ⟨some 7⟩ .usbNotFound).1.camera = none
    ∧ (Cam.disconnect ⟨some 7⟩ .usbNotFound).2 = none
    ∧ (Cam.disconnect ⟨some 7⟩ (.otherError 3)).2 = some 3 := by
  have h1 := C9_disconnect_clears_handle ⟨some 7⟩ 7 .usbNotFound rfl
  have h2 := C9_disconnect_clears_handle ⟨some 7⟩ 7 (.otherError 3) rfl
  exact ⟨h1.1, h1.2.2.1 rfl, h2.2.2.2 3 rfl⟩

/-- Claim C10 amended: the registration loop always terminates — it performs
at most `4·(n+1)` passes over `n` entries, because the retry counter is reset
by every successful registration, so only runs of passes without any progress
count against the bound of 3 extra passes; every entry is either registered or
dropped (never an error to the caller); and when no entry ever resolves the
loop performs exactly the first pass plus 3 retry passes and then drops all
remaining entries. -/
theorem C10_amended_registration_retry :
    ∀ (init : List Reg.Iface) (ds : List Reg.Entry),
      (Reg.registerDependencies init ds).passes ≤ 4 * (ds.length + 1)
      ∧ (∀ e ∈ ds, e.iface ∈ (Reg.registerDependencies init ds).reg
          ∨ e ∈ (Reg.registerDependencies init ds).dropped)
      ∧ (ds ≠ [] → (∀ e ∈ ds, Reg.resolvable init e = false) →
          Reg.registerDependencies init ds = ⟨init, ds, 4⟩) := by
  intro init ds
  refine ⟨?_, ?_, ?_⟩
  · have h := Reg.runAux_passes_le ds init 0 0 (by omega)
    simpa [Reg.registerDependencies] using by omega
  · intro e he
    exact Reg.runAux_mem ds init 0 0 e he
  · intro hq h
    exact Reg.runAux_stuck 3 init ds 0 0 hq h rfl

/-- Claim C10 amended witness: a single never-resolvable entry is dropped
after the first pass plus exactly 3 retry passes, within the pass bound. -/
theorem C10_amended_registration_retry_witness :
    (Reg.registerDependencies [] dsBlocked).passes ≤ 4 * (dsBlocked.length + 1)
    ∧ Reg.registerDependencies [] dsBlocked = ⟨[], dsBlocked, 4⟩ := by
  have h := C10_amended_registration_retry [] dsBlocked
  exact ⟨h.1, h.2.2 (by decide) (by decide)⟩

/-- Claim C10 counterexample: the claim bounds the loop at 3 extra retry
passes after the first full pass (at most 4 passes in total over unresolved
entries). On the five-entry chain declared in reverse order, each pass
registers exactly one entry, resetting the retry counter, and the loop runs 5
full passes — more than the claimed 1 + 3 — before registering all five. -/
theorem C10_counterexample_five_passes :
    Reg.registerDependencies [] chain5 = ⟨[1, 2, 3, 4, 5], [], 5⟩
    ∧ ¬((Reg.registerDependencies [] chain5).passes ≤ 1 + 3) := by
  have h : Reg.registerDependencies [] chain5 = ⟨[1, 2, 3, 4, 5], [], 5⟩ := by
    simp [Reg.registerDependencies, Reg.runAux, Reg.pass, Reg.resolvable,
      chain5, Reg.nextAttempt]
  rw [h]
  exact ⟨rfl, by decide⟩
